import Mathlib

/-!
Verification of the X-Form-Backend core components against their sources:

* `app/services/cache_service.py` (analytics service): cache key composition
  (`_get_cache_key`), Redis-backed `get`/`set`/`delete`/`delete_pattern` with
  error absorption, and glob-pattern scope invalidation
  (`invalidate_form_cache`, `invalidate_question_cache`,
  `invalidate_all_analytics_cache`).
* `src/domain/models.py` (file-upload service): the `UploadRequest` entity,
  its construction-time validation (`__post_init__`), storage-key derivation
  (`_generate_s3_key`), and the status transition methods.
* `src/application/use_cases.py` (file-upload service):
  `CleanupExpiredUploadsUseCase.execute`.
* `src/infrastructure/dynamodb_repository.py`: `find_expired_requests`.

Python strings are modelled as Lean `String`, Python `None`-able values as
`Option`, raised exceptions as `Except`/error results, and the external
Redis / DynamoDB / S3 collaborators as explicit state values or response
parameters threaded through the operations.
-/

/-! ## Code-point string comparison

Python's `sorted` compares `str` values lexicographically by code point;
this is the comparison used on keyword-argument names in `_get_cache_key`.
-/

/-- Lexicographic strict comparison of two code-point lists, as Python
compares `str` values. -/
def strLt : List Char → List Char → Bool
  | [], [] => false
  | [], _ :: _ => true
  | _ :: _, [] => false
  | a :: s, b :: t => if a < b then true else if b < a then false else strLt s t

theorem strLt_asymm : ∀ {s t : List Char}, strLt s t = true → strLt t s = true → False
  | [], [], h, _ => by simp [strLt] at h
  | [], _ :: _, _, h' => by simp [strLt] at h'
  | _ :: _, [], h, _ => by simp [strLt] at h
  | a :: s, b :: t, h, h' => by
      rcases lt_trichotomy a b with hab | hab | hab
      · simp [strLt, hab, not_lt_of_gt hab] at h'
      · subst hab
        simp [strLt, lt_irrefl] at h h'
        exact strLt_asymm h h'
      · simp [strLt, hab, not_lt_of_gt hab] at h

theorem strLt_eq_of_not : ∀ {s t : List Char}, strLt s t = false → strLt t s = false → s = t
  | [], [], _, _ => rfl
  | [], _ :: _, h, _ => by simp [strLt] at h
  | _ :: _, [], _, h' => by simp [strLt] at h'
  | a :: s, b :: t, h, h' => by
      rcases lt_trichotomy a b with hab | hab | hab
      · simp [strLt, hab] at h
      · subst hab
        simp [strLt, lt_irrefl] at h h'
        exact congrArg (a :: ·) (strLt_eq_of_not h h')
      · simp [strLt, hab, not_lt_of_gt hab] at h'

theorem strLt_trans : ∀ {s t u : List Char},
    strLt s t = true → strLt t u = true → strLt s u = true
  | [], [], _, h2, _ => by simp [strLt] at h2
  | [], _ :: _, [], _, h2 => by simp [strLt] at h2
  | [], _ :: _, _ :: _, _, _ => by simp [strLt]
  | _ :: _, [], _, h1, _ => by simp [strLt] at h1
  | _ :: _, _ :: _, [], _, h2 => by simp [strLt] at h2
  | a :: s, b :: t, c :: u, h1, h2 => by
      rcases lt_trichotomy a b with hab | hab | hab
      · rcases lt_trichotomy b c with hbc | hbc | hbc
        · simp [strLt, lt_trans hab hbc]
        · subst hbc; simp [strLt, hab]
        · simp [strLt, hbc, not_lt_of_gt hbc] at h2
      · subst hab
        rcases lt_trichotomy a c with hac | hac | hac
        · simp [strLt, hac]
        · subst hac
          simp [strLt, lt_irrefl] at h1 h2 ⊢
          exact strLt_trans h1 h2
        · simp [strLt, hac, not_lt_of_gt hac] at h2
      · simp [strLt, hab, not_lt_of_gt hab] at h1

/-- Negated comparison `¬(t < s)` is transitive; used for sortedness of the key ordering. -/
theorem strLt_not_trans {s t u : List Char}
    (h1 : strLt t s = false) (h2 : strLt u t = false) : strLt u s = false := by
  by_contra h
  rw [Bool.not_eq_false] at h
  cases h3 : strLt t u with
  | true => exact absurd (strLt_trans h3 h) (by simp [h1])
  | false => exact absurd (strLt_eq_of_not h2 h3 ▸ h) (by simp [h1])

/-! ## Redis glob pattern matching

`delete_pattern` feeds its pattern to Redis `KEYS`, which matches with
glob-style semantics.  The patterns built by the cache service contain only
literal characters and `*`; the matcher below implements the Redis
semantics for `*` (any, possibly empty, substring), `?` (any single
character) and literal characters.  Character classes (`[...]`) and
backslash escapes never occur in the service's patterns and are not
modelled; universal statements therefore restrict pattern fragments to
glob-literal strings (`GlobLit`).
-/

/-- Redis-style glob matching on code-point lists, restricted to `*`, `?`
and literal characters. -/
def globMatchL : List Char → List Char → Bool
  | [], s => s.isEmpty
  | c :: p, s =>
    if c = '*' then s.tails.any fun s' => globMatchL p s'
    else if c = '?' then
      match s with
      | [] => false
      | _ :: s' => globMatchL p s'
    else
      match s with
      | [] => false
      | d :: s' => c == d && globMatchL p s'

/-- String-level wrapper mirroring `redis_client.keys(pattern)` key tests. -/
def globMatch (pat s : String) : Bool := globMatchL pat.data s.data

/-- A string fragment that glob-matching treats literally. -/
def GlobLit (s : String) : Prop := ∀ c ∈ s.data, c ≠ '*' ∧ c ≠ '?'

instance (s : String) : Decidable (GlobLit s) := by
  unfold GlobLit
  infer_instance

theorem globMatchL_star_of_suffix {p s : List Char} (s' : List Char)
    (hs : List.IsSuffix s' s) (h : globMatchL p s' = true) :
    globMatchL ('*' :: p) s = true := by
  have hmem : s' ∈ s.tails := (List.mem_tails s' s).mpr hs
  show (if ('*' : Char) = '*' then s.tails.any fun t => globMatchL p t
    else if ('*' : Char) = '?' then
      match s with
      | [] => false
      | _ :: t => globMatchL p t
    else
      match s with
      | [] => false
      | d :: t => ('*' == d) && globMatchL p t) = true
  rw [if_pos rfl, List.any_eq_true]
  exact ⟨s', hmem, h⟩

theorem globMatchL_star_nil (s : List Char) : globMatchL ['*'] s = true :=
  globMatchL_star_of_suffix [] List.nil_suffix rfl

theorem globMatchL_append_lit : ∀ {l : List Char}, (∀ c ∈ l, c ≠ '*' ∧ c ≠ '?') →
    ∀ {p s : List Char}, globMatchL (l ++ p) (l ++ s) = globMatchL p s
  | [], _, _, _ => rfl
  | c :: l, hl, p, s => by
      have hc := hl c (List.mem_cons_self c l)
      have hl' : ∀ c' ∈ l, c' ≠ '*' ∧ c' ≠ '?' :=
        fun c' hc' => hl c' (List.mem_cons_of_mem c hc')
      simp only [List.cons_append, globMatchL, if_neg hc.1, if_neg hc.2,
        beq_self_eq_true, Bool.true_and]
      exact globMatchL_append_lit hl'

/-- The form of the literal-prefix lemma used on `String` values. -/
theorem globMatch_append_lit {l p s : String} (hl : GlobLit l) :
    globMatch (l ++ p) (l ++ s) = globMatch p s := by
  unfold globMatch
  rw [String.data_append, String.data_append]
  exact globMatchL_append_lit hl

/-! ## Keyword-argument sorting

`_get_cache_key` iterates `sorted(kwargs.items())`; since keyword-argument
names in a Python call are distinct, this is a sort by parameter name.
Parameter values are the already-rendered strings (datetimes pass through
`isoformat()` before rendering), or `None`.
-/

/-- One keyword argument of `_get_cache_key`: name and (possibly `None`)
rendered value. -/
abbrev CacheParam := String × Option String

/-- Name comparison underlying `sorted`: `a` may precede `b` iff `b` is not
strictly below `a`. -/
def nameLe (a b : String) : Bool := ! strLt b.data a.data

/-- Key-name comparison used by `sorted(kwargs.items())`: `a` may precede
`b` iff `b`'s name is not strictly below `a`'s. -/
def paramLe (a b : CacheParam) : Bool := nameLe a.1 b.1

def insertParam (a : CacheParam) : List CacheParam → List CacheParam
  | [] => [a]
  | b :: l => if paramLe a b then a :: b :: l else b :: insertParam a l

/-- Insertion sort by parameter name, modelling `sorted(kwargs.items())`
on keyword arguments (whose names are distinct). -/
def sortParams : List CacheParam → List CacheParam
  | [] => []
  | a :: l => insertParam a (sortParams l)

theorem insertParam_perm (a : CacheParam) :
    ∀ l : List CacheParam, List.Perm (insertParam a l) (a :: l)
  | [] => List.Perm.refl [a]
  | b :: l => by
      by_cases h : paramLe a b = true
      · simp [insertParam, h]
      · simp only [insertParam, if_neg h]
        exact ((insertParam_perm a l).cons b).trans (List.Perm.swap a b l)

theorem sortParams_perm : ∀ l : List CacheParam, List.Perm (sortParams l) l
  | [] => List.Perm.refl []
  | a :: l => (insertParam_perm a (sortParams l)).trans ((sortParams_perm l).cons a)

theorem paramLe_total {a b : CacheParam} (h : paramLe a b = false) : paramLe b a = true := by
  unfold paramLe nameLe at h ⊢
  simp only [Bool.not_eq_false'] at h
  cases h2 : strLt a.1.data b.1.data with
  | true => exact absurd (strLt_asymm h h2) (fun f => f)
  | false => simp

theorem paramLe_trans {a b c : CacheParam}
    (h1 : paramLe a b = true) (h2 : paramLe b c = true) : paramLe a c = true := by
  unfold paramLe nameLe at h1 h2 ⊢
  simp only [Bool.not_eq_true'] at h1 h2
  simp only [Bool.not_eq_true']
  exact strLt_not_trans h1 h2

theorem pairwise_insertParam {a : CacheParam} :
    ∀ {l : List CacheParam}, l.Pairwise (fun x y => paramLe x y = true) →
      (insertParam a l).Pairwise (fun x y => paramLe x y = true)
  | [], _ => List.pairwise_singleton _ a
  | b :: l, h => by
      rcases List.pairwise_cons.mp h with ⟨hb, hl⟩
      by_cases hab : paramLe a b = true
      · simp only [insertParam, if_pos hab]
        refine List.pairwise_cons.mpr ⟨?_, h⟩
        intro x hx
        rcases List.mem_cons.mp hx with rfl | hx
        · exact hab
        · exact paramLe_trans hab (hb x hx)
      · simp only [insertParam, if_neg hab]
        refine List.pairwise_cons.mpr ⟨?_, pairwise_insertParam hl⟩
        intro x hx
        have hx' := (insertParam_perm a l).mem_iff.mp hx
        rcases List.mem_cons.mp hx' with rfl | hx'
        · exact paramLe_total (by simpa using hab)
        · exact hb x hx'

theorem pairwise_sortParams :
    ∀ l : List CacheParam, (sortParams l).Pairwise (fun x y => paramLe x y = true)
  | [] => List.Pairwise.nil
  | _ :: l => pairwise_insertParam (pairwise_sortParams l)

/-! ## `_get_cache_key` (cache_service.py lines 31-41) -/

/-- Renders one keyword argument: `None` values are skipped, others
contribute `f"{key}:{value}"`. -/
def renderParam : CacheParam → Option String
  | (_, none) => none
  | (k, some v) => some (k ++ ":" ++ v)

/-- Python `":".join(parts)`. -/
def joinColon : List String → String
  | [] => ""
  | [s] => s
  | s :: rest => s ++ ":" ++ joinColon rest

/-- Model of `_get_cache_key(key_type, **kwargs)`:
`":".join([settings.cache_prefix, key_type] ++ sorted non-None "k:v" parts)`. -/
def getCacheKey (cachePfx keyType : String) (kwargs : List CacheParam) : String :=
  joinColon ([cachePfx, keyType] ++ (sortParams kwargs).filterMap renderParam)

/-! ## Redis backing store model

The cache service talks to Redis through `redis_client`.  The store is a
keyspace (association list of key/entry pairs, an entry holding the stored
string and its TTL) plus a `failing` flag: when set, every Redis command
raises, modelling backing-store unavailability.  `SETEX` returns `True`,
`DEL` returns the number of keys removed, `KEYS` returns the keys matching
a glob pattern.
-/

inductive RedisResult (α : Type) where
  | ok (val : α)
  | err (msg : String)
  deriving DecidableEq

structure RedisEntry where
  value : String
  ttl : Int
  deriving DecidableEq

structure RedisState where
  entries : List (String × RedisEntry)
  failing : Bool
  deriving DecidableEq

/-- Model of `redis_client.get(key)`: the stored string, or `None` when absent. -/
def redisGet (st : RedisState) (key : String) : RedisResult (Option String) :=
  if st.failing then .err "connection refused"
  else .ok ((st.entries.lookup key).map RedisEntry.value)

/-- Model of `redis_client.setex(key, ttl, value)`: stores the entry, returns `True`. -/
def redisSetex (st : RedisState) (key : String) (ttl : Int) (v : String) :
    RedisResult (Bool × RedisState) :=
  if st.failing then .err "connection refused"
  else .ok (true, ⟨(key, ⟨v, ttl⟩) :: st.entries.filter (fun kv => kv.1 != key), st.failing⟩)

/-- Model of `redis_client.delete(key)` on a single key: removal count and new state. -/
def redisDelete (st : RedisState) (key : String) : RedisResult (Nat × RedisState) :=
  if st.failing then .err "connection refused"
  else .ok ((if (st.entries.lookup key).isSome then 1 else 0),
    ⟨st.entries.filter (fun kv => kv.1 != key), st.failing⟩)

/-- Model of `redis_client.keys(pattern)`: all stored keys matching the glob pattern. -/
def redisKeys (st : RedisState) (pat : String) : RedisResult (List String) :=
  if st.failing then .err "connection refused"
  else .ok ((st.entries.map Prod.fst).filter (fun k => globMatch pat k))

/-- Model of `redis_client.delete(*keys)`: removes every listed key, returns the
number of entries removed. -/
def redisDeleteMany (st : RedisState) (keys : List String) : RedisResult (Nat × RedisState) :=
  if st.failing then .err "connection refused"
  else .ok ((st.entries.filter (fun kv => keys.contains kv.1)).length,
    ⟨st.entries.filter (fun kv => ! keys.contains kv.1), st.failing⟩)

/-! ## CacheService operations (cache_service.py lines 43-81, 143-156)

`json.dumps`/`json.loads` belong to the standard library, an external
collaborator: they are modelled as a serializer pair.  `loads` may fail
(malformed payload raises, which the service's `except` turns into a
miss), `dumps` with `default=str` is total.
-/

structure Serializer (α : Type) where
  dumps : α → String
  loads : String → Option α

/-- Value of `settings.cache_ttl` by default (config.py line 49). -/
def defaultCacheTTL : Int := 3600

/-- Model of `ttl = ttl or self.default_ttl`: Python replaces a falsy `ttl` (that
is, `None` or `0`) with the default. -/
def effectiveTTL (defaultTTL : Int) (ttl : Option Int) : Int :=
  match ttl with
  | none => defaultTTL
  | some t => if t = 0 then defaultTTL else t

/-- Model of `CacheService.get`: `redis_client.get`, then `json.loads` when the
reply is truthy; any raise inside the `try` is degraded to `None`. -/
def cacheGet {α : Type} (ser : Serializer α) (st : RedisState) (key : String) : Option α :=
  match redisGet st key with
  | .err _ => none
  | .ok none => none
  | .ok (some v) => if v = "" then none else ser.loads v

/-- Model of `CacheService.set`: default the TTL, serialize, `setex`; any raise is
degraded to `False` (and the store is left as it was). -/
def cacheSet {α : Type} (ser : Serializer α) (defaultTTL : Int) (st : RedisState)
    (key : String) (v : α) (ttl : Option Int) : Bool × RedisState :=
  match redisSetex st key (effectiveTTL defaultTTL ttl) (ser.dumps v) with
  | .err _ => (false, st)
  | .ok (b, st') => (b, st')

/-- Model of `CacheService.delete`: `bool(redis_client.delete(key))`, degraded to
`False` on any raise. -/
def cacheDelete (st : RedisState) (key : String) : Bool × RedisState :=
  match redisDelete st key with
  | .err _ => (false, st)
  | .ok (n, st') => (n != 0, st')

/-- Model of `CacheService.delete_pattern`: `keys(pattern)` then `delete(*keys)`
when non-empty; any raise is degraded to `0`. -/
def cacheDeletePattern (st : RedisState) (pat : String) : Nat × RedisState :=
  match redisKeys st pat with
  | .err _ => (0, st)
  | .ok ks =>
    if ks.isEmpty then (0, st)
    else
      match redisDeleteMany st ks with
      | .err _ => (0, st)
      | .ok (n, st') => (n, st')

/-! ## Cache key builders and scope invalidation (lines 84-156) -/

/-- Key built by `get_form_summary`/`set_form_summary`. -/
def formSummaryKey (pfx fid : String) (sd ed : Option String) : String :=
  getCacheKey pfx "form_summary" [("form_id", some fid), ("start_date", sd), ("end_date", ed)]

/-- Key built by `get_question_analytics`/`set_question_analytics`. -/
def questionAnalyticsKey (pfx fid qid : String) (sd ed : Option String) : String :=
  getCacheKey pfx "question_analytics"
    [("form_id", some fid), ("question_id", some qid), ("start_date", sd), ("end_date", ed)]

/-- Key built by `get_trend_analysis`/`set_trend_analysis`. -/
def trendAnalysisKey (pfx fid period : String) (sd ed : Option String) : String :=
  getCacheKey pfx "trend_analysis"
    [("form_id", some fid), ("period", some period), ("start_date", sd), ("end_date", ed)]

/-- Model of `invalidate_form_cache(form_id)`:
`delete_pattern(f"{prefix}:*:form_id:{form_id}*")`. -/
def invalidateFormCache (pfx fid : String) (st : RedisState) : Nat × RedisState :=
  cacheDeletePattern st (pfx ++ ":*:form_id:" ++ fid ++ "*")

/-- Model of `invalidate_question_cache(form_id, question_id)`:
`delete_pattern(f"{prefix}:*:form_id:{form_id}*:question_id:{question_id}*")`. -/
def invalidateQuestionCache (pfx fid qid : String) (st : RedisState) : Nat × RedisState :=
  cacheDeletePattern st (pfx ++ ":*:form_id:" ++ fid ++ "*:question_id:" ++ qid ++ "*")

/-- Model of `invalidate_all_analytics_cache()`: `delete_pattern(f"{prefix}:*")`. -/
def invalidateAllAnalyticsCache (pfx : String) (st : RedisState) : Nat × RedisState :=
  cacheDeletePattern st (pfx ++ ":*")

/-- The population of keys the cache service ever writes: each stored
entry is keyed by one of the three builders. -/
inductive CacheKeySpec where
  | formSummary (fid : String) (sd ed : Option String)
  | questionAnalytics (fid qid : String) (sd ed : Option String)
  | trendAnalysis (fid period : String) (sd ed : Option String)
  deriving DecidableEq

def CacheKeySpec.render (pfx : String) : CacheKeySpec → String
  | .formSummary fid sd ed => formSummaryKey pfx fid sd ed
  | .questionAnalytics fid qid sd ed => questionAnalyticsKey pfx fid qid sd ed
  | .trendAnalysis fid period sd ed => trendAnalysisKey pfx fid period sd ed

/-- The form a stored entry belongs to (the scope of
`invalidate_form_cache`). -/
def CacheKeySpec.formId : CacheKeySpec → String
  | .formSummary fid _ _ => fid
  | .questionAnalytics fid _ _ _ => fid
  | .trendAnalysis fid _ _ _ => fid

/-- Whether a stored entry is question-analytics data for `(fid, qid)`
(the scope of `invalidate_question_cache`). -/
def CacheKeySpec.isQuestionScope (fid qid : String) : CacheKeySpec → Prop
  | .formSummary _ _ _ => False
  | .questionAnalytics fid' qid' _ _ => fid' = fid ∧ qid' = qid
  | .trendAnalysis _ _ _ _ => False

/-- Rendering of one optional, already-rendered query parameter inside a
key: absent parameters contribute nothing. -/
def optPart (name : String) : Option String → String
  | none => ""
  | some v => ":" ++ name ++ ":" ++ v

theorem formSummaryKey_data (pfx fid : String) (sd ed : Option String) :
    (formSummaryKey pfx fid sd ed).data =
      pfx.data ++ ":form_summary".data ++ (optPart "end_date" ed).data
        ++ ":form_id:".data ++ fid.data ++ (optPart "start_date" sd).data := by
  have h1 : nameLe "start_date" "form_id" = false := by decide
  have h2 : nameLe "end_date" "start_date" = true := by decide
  have h3 : nameLe "end_date" "form_id" = true := by decide
  cases sd <;> cases ed <;>
    simp [formSummaryKey, getCacheKey, sortParams, insertParam, paramLe, h1, h2, h3,
      renderParam, optPart, joinColon, String.data_append]

theorem questionAnalyticsKey_data (pfx fid qid : String) (sd ed : Option String) :
    (questionAnalyticsKey pfx fid qid sd ed).data =
      pfx.data ++ ":question_analytics".data ++ (optPart "end_date" ed).data
        ++ ":form_id:".data ++ fid.data ++ ":question_id:".data ++ qid.data
        ++ (optPart "start_date" sd).data := by
  have h1 : nameLe "question_id" "form_id" = false := by decide
  have h2 : nameLe "start_date" "form_id" = false := by decide
  have h3 : nameLe "start_date" "question_id" = false := by decide
  have h4 : nameLe "end_date" "form_id" = true := by decide
  have h5 : nameLe "end_date" "question_id" = true := by decide
  have h6 : nameLe "end_date" "start_date" = true := by decide
  have h7 : nameLe "form_id" "question_id" = true := by decide
  have h8 : nameLe "question_id" "start_date" = true := by decide
  cases sd <;> cases ed <;>
    simp [questionAnalyticsKey, getCacheKey, sortParams, insertParam, paramLe,
      h1, h2, h3, h4, h5, h6, h7, h8, renderParam, optPart, joinColon, String.data_append]

theorem trendAnalysisKey_data (pfx fid period : String) (sd ed : Option String) :
    (trendAnalysisKey pfx fid period sd ed).data =
      pfx.data ++ ":trend_analysis".data ++ (optPart "end_date" ed).data
        ++ ":form_id:".data ++ fid.data ++ ":period:".data ++ period.data
        ++ (optPart "start_date" sd).data := by
  have h1 : nameLe "period" "form_id" = false := by decide
  have h2 : nameLe "start_date" "form_id" = false := by decide
  have h3 : nameLe "start_date" "period" = false := by decide
  have h4 : nameLe "end_date" "form_id" = true := by decide
  have h5 : nameLe "end_date" "period" = true := by decide
  have h6 : nameLe "end_date" "start_date" = true := by decide
  have h7 : nameLe "form_id" "period" = true := by decide
  have h8 : nameLe "period" "start_date" = true := by decide
  cases sd <;> cases ed <;>
    simp [trendAnalysisKey, getCacheKey, sortParams, insertParam, paramLe,
      h1, h2, h3, h4, h5, h6, h7, h8, renderParam, optPart, joinColon, String.data_append]


/-! ## Scope patterns match all in-scope keys -/

theorem globLit_append {l l' : List Char}
    (h : ∀ c ∈ l, c ≠ '*' ∧ c ≠ '?') (h' : ∀ c ∈ l', c ≠ '*' ∧ c ≠ '?') :
    ∀ c ∈ l ++ l', c ≠ '*' ∧ c ≠ '?' := by
  intro c hc
  rcases List.mem_append.mp hc with hc | hc
  · exact h c hc
  · exact h' c hc

theorem globMatchL_form_pattern {pfxD fidD : List Char} (mid rest : List Char)
    (hp : ∀ c ∈ pfxD, c ≠ '*' ∧ c ≠ '?') (hf : ∀ c ∈ fidD, c ≠ '*' ∧ c ≠ '?') :
    globMatchL (pfxD ++ ':' :: '*' :: (":form_id:".data ++ fidD ++ ['*']))
      (pfxD ++ ':' :: (mid ++ ":form_id:".data ++ fidD ++ rest)) = true := by
  have hcolon : ∀ c ∈ ([':'] : List Char), c ≠ '*' ∧ c ≠ '?' := by decide
  have hformid : ∀ c ∈ ":form_id:".data, c ≠ '*' ∧ c ≠ '?' := by decide
  have e1 : pfxD ++ ':' :: '*' :: (":form_id:".data ++ fidD ++ ['*']) =
      (pfxD ++ [':']) ++ ('*' :: (":form_id:".data ++ fidD ++ ['*'])) := by simp
  have e2 : pfxD ++ ':' :: (mid ++ ":form_id:".data ++ fidD ++ rest) =
      (pfxD ++ [':']) ++ (mid ++ ":form_id:".data ++ fidD ++ rest) := by simp
  rw [e1, e2, globMatchL_append_lit (globLit_append hp hcolon)]
  apply globMatchL_star_of_suffix (":form_id:".data ++ fidD ++ rest)
  · have : mid ++ ":form_id:".data ++ fidD ++ rest =
        mid ++ (":form_id:".data ++ fidD ++ rest) := by simp
    rw [this]
    exact List.suffix_append mid _
  · have e3 : ":form_id:".data ++ fidD ++ ['*'] =
        (":form_id:".data ++ fidD) ++ ['*'] := by simp
    have e4 : ":form_id:".data ++ fidD ++ rest =
        (":form_id:".data ++ fidD) ++ rest := by simp
    rw [e3, e4, globMatchL_append_lit (globLit_append hformid hf)]
    exact globMatchL_star_nil rest

theorem globMatchL_question_pattern {pfxD fidD qidD : List Char} (mid rest : List Char)
    (hp : ∀ c ∈ pfxD, c ≠ '*' ∧ c ≠ '?') (hf : ∀ c ∈ fidD, c ≠ '*' ∧ c ≠ '?')
    (hq : ∀ c ∈ qidD, c ≠ '*' ∧ c ≠ '?') :
    globMatchL
      (pfxD ++ ':' :: '*' ::
        (":form_id:".data ++ fidD ++ '*' :: (":question_id:".data ++ qidD ++ ['*'])))
      (pfxD ++ ':' :: (mid ++ ":form_id:".data ++ fidD ++ ":question_id:".data
        ++ qidD ++ rest)) = true := by
  have hcolon : ∀ c ∈ ([':'] : List Char), c ≠ '*' ∧ c ≠ '?' := by decide
  have hformid : ∀ c ∈ ":form_id:".data, c ≠ '*' ∧ c ≠ '?' := by decide
  have hquesid : ∀ c ∈ ":question_id:".data, c ≠ '*' ∧ c ≠ '?' := by decide
  have e1 : pfxD ++ ':' :: '*' ::
        (":form_id:".data ++ fidD ++ '*' :: (":question_id:".data ++ qidD ++ ['*'])) =
      (pfxD ++ [':']) ++ ('*' ::
        (":form_id:".data ++ fidD ++ '*' :: (":question_id:".data ++ qidD ++ ['*']))) := by
    simp
  have e2 : pfxD ++ ':' :: (mid ++ ":form_id:".data ++ fidD ++ ":question_id:".data
        ++ qidD ++ rest) =
      (pfxD ++ [':']) ++ (mid ++ ":form_id:".data ++ fidD ++ ":question_id:".data
        ++ qidD ++ rest) := by simp
  rw [e1, e2, globMatchL_append_lit (globLit_append hp hcolon)]
  apply globMatchL_star_of_suffix
    (":form_id:".data ++ fidD ++ ":question_id:".data ++ qidD ++ rest)
  · have : mid ++ ":form_id:".data ++ fidD ++ ":question_id:".data ++ qidD ++ rest =
        mid ++ (":form_id:".data ++ fidD ++ ":question_id:".data ++ qidD ++ rest) := by
      simp
    rw [this]
    exact List.suffix_append mid _
  · have e3 : ":form_id:".data ++ fidD ++ '*' :: (":question_id:".data ++ qidD ++ ['*']) =
        (":form_id:".data ++ fidD) ++ '*' :: (":question_id:".data ++ qidD ++ ['*']) := by
      simp
    have e4 : ":form_id:".data ++ fidD ++ ":question_id:".data ++ qidD ++ rest =
        (":form_id:".data ++ fidD) ++ (":question_id:".data ++ qidD ++ rest) := by simp
    rw [e3, e4, globMatchL_append_lit (globLit_append hformid hf)]
    apply globMatchL_star_of_suffix (":question_id:".data ++ qidD ++ rest)
    · exact List.suffix_refl _
    · have e5 : ":question_id:".data ++ qidD ++ ['*'] =
          (":question_id:".data ++ qidD) ++ ['*'] := by simp
      have e6 : ":question_id:".data ++ qidD ++ rest =
          (":question_id:".data ++ qidD) ++ rest := by simp
      rw [e5, e6, globMatchL_append_lit (globLit_append hquesid hq)]
      exact globMatchL_star_nil rest

theorem globMatchL_all_pattern {pfxD : List Char} (rest : List Char)
    (hp : ∀ c ∈ pfxD, c ≠ '*' ∧ c ≠ '?') :
    globMatchL (pfxD ++ [':', '*']) (pfxD ++ ':' :: rest) = true := by
  have hcolon : ∀ c ∈ ([':'] : List Char), c ≠ '*' ∧ c ≠ '?' := by decide
  have e1 : pfxD ++ [':', '*'] = (pfxD ++ [':']) ++ ['*'] := by simp
  have e2 : pfxD ++ ':' :: rest = (pfxD ++ [':']) ++ rest := by simp
  rw [e1, e2, globMatchL_append_lit (globLit_append hp hcolon)]
  exact globMatchL_star_nil rest

/-! ## Behaviour of `delete_pattern` on a healthy store -/

/-- On a healthy store, `delete_pattern` returns the number of matching
entries and keeps exactly the non-matching ones (the `if keys:` guard in
the source collapses to the same outcome when nothing matches). -/
theorem cacheDeletePattern_healthy (entries : List (String × RedisEntry)) (pat : String) :
    cacheDeletePattern ⟨entries, false⟩ pat =
      ((entries.filter fun kv =>
          ((entries.map Prod.fst).filter fun s => globMatch pat s).contains kv.1).length,
        ⟨entries.filter fun kv =>
          !(((entries.map Prod.fst).filter fun s => globMatch pat s).contains kv.1),
         false⟩) := by
  by_cases h : ((entries.map Prod.fst).filter fun s => globMatch pat s).isEmpty
  · have hksnil : (entries.map Prod.fst).filter (fun s => globMatch pat s) = [] :=
      List.isEmpty_iff.mp h
    simp [cacheDeletePattern, redisKeys, redisDeleteMany, h, hksnil]
  · simp [cacheDeletePattern, redisKeys, redisDeleteMany, h]

/-- On a healthy store, `delete_pattern` removes every entry whose key
matches the pattern. -/
theorem cacheDeletePattern_removes {entries : List (String × RedisEntry)}
    {pat k : String} (hk : globMatch pat k = true) (v : RedisEntry)
    (hmem : (k, v) ∈ entries) :
    (k, v) ∉ (cacheDeletePattern ⟨entries, false⟩ pat).2.entries := by
  have hkmem : k ∈ (entries.map Prod.fst).filter (fun s => globMatch pat s) :=
    List.mem_filter.mpr ⟨List.mem_map.mpr ⟨(k, v), hmem, rfl⟩, hk⟩
  rw [cacheDeletePattern_healthy]
  intro hin
  have h2 := (List.mem_filter.mp hin).2
  simp only [Bool.not_eq_true'] at h2
  have h3 : ((entries.map Prod.fst).filter (fun s => globMatch pat s)).contains k = true :=
    List.elem_eq_true_of_mem hkmem
  rw [h2] at h3
  exact absurd h3 (by decide)

/-- On a healthy store, the count returned by `delete_pattern` plus the
number of surviving entries is the number of stored entries. -/
theorem cacheDeletePattern_count (entries : List (String × RedisEntry)) (pat : String) :
    (cacheDeletePattern ⟨entries, false⟩ pat).1
      + (cacheDeletePattern ⟨entries, false⟩ pat).2.entries.length
      = entries.length := by
  rw [cacheDeletePattern_healthy]
  exact (List.length_eq_length_filter_add
    (fun kv : String × RedisEntry =>
      ((entries.map Prod.fst).filter fun s => globMatch pat s).contains kv.1)).symm

/-- On a healthy store whose every key matches the pattern,
`delete_pattern` empties the store and returns the full count. -/
theorem cacheDeletePattern_all {entries : List (String × RedisEntry)}
    {pat : String} (hall : ∀ kv ∈ entries, globMatch pat kv.1 = true) :
    (cacheDeletePattern ⟨entries, false⟩ pat).2.entries = []
      ∧ (cacheDeletePattern ⟨entries, false⟩ pat).1 = entries.length := by
  have hfilt : (entries.map Prod.fst).filter (fun s => globMatch pat s)
      = entries.map Prod.fst := by
    apply List.filter_eq_self.mpr
    intro k hkmem
    rcases List.mem_map.mp hkmem with ⟨kv, hkv, rfl⟩
    exact hall kv hkv
  have hcont : ∀ kv ∈ entries, (entries.map Prod.fst).contains kv.1 = true :=
    fun kv hkv => List.elem_eq_true_of_mem (List.mem_map.mpr ⟨kv, hkv, rfl⟩)
  rw [cacheDeletePattern_healthy]
  simp only [hfilt]
  constructor
  · apply List.filter_eq_nil_iff.mpr
    intro kv hkv
    rw [hcont kv hkv]
    decide
  · have heq : entries.filter (fun kv => (entries.map Prod.fst).contains kv.1) = entries :=
      List.filter_eq_self.mpr hcont
    rw [heq]

/-! ## Every in-scope key matches its scope's pattern -/

theorem formScope_matches {pfx f : String} (hp : GlobLit pfx) (hf : GlobLit f) :
    ∀ sp : CacheKeySpec, sp.formId = f →
      globMatch (pfx ++ ":*:form_id:" ++ f ++ "*") (sp.render pfx) = true := by
  have hb1 : (":*:form_id:" : String).data = ':' :: '*' :: ":form_id:".data := rfl
  have hb2 : ("*" : String).data = ['*'] := rfl
  have hb3 : (":form_summary" : String).data = ':' :: "form_summary".data := rfl
  have hb4 : (":question_analytics" : String).data = ':' :: "question_analytics".data := rfl
  have hb5 : (":trend_analysis" : String).data = ':' :: "trend_analysis".data := rfl
  intro sp hsp
  cases sp with
  | formSummary fid sd ed =>
    simp only [CacheKeySpec.formId] at hsp
    subst hsp
    unfold globMatch
    rw [CacheKeySpec.render, formSummaryKey_data]
    simp only [String.data_append, hb1, hb2, hb3, List.append_assoc, List.cons_append,
      List.nil_append]
    simpa [List.append_assoc] using
      globMatchL_form_pattern
        ("form_summary".data ++ (optPart "end_date" ed).data)
        ((optPart "start_date" sd).data) hp hf
  | questionAnalytics fid qid sd ed =>
    simp only [CacheKeySpec.formId] at hsp
    subst hsp
    unfold globMatch
    rw [CacheKeySpec.render, questionAnalyticsKey_data]
    simp only [String.data_append, hb1, hb2, hb4, List.append_assoc, List.cons_append,
      List.nil_append]
    simpa [List.append_assoc] using
      globMatchL_form_pattern
        ("question_analytics".data ++ (optPart "end_date" ed).data)
        (":question_id:".data ++ qid.data ++ (optPart "start_date" sd).data) hp hf
  | trendAnalysis fid period sd ed =>
    simp only [CacheKeySpec.formId] at hsp
    subst hsp
    unfold globMatch
    rw [CacheKeySpec.render, trendAnalysisKey_data]
    simp only [String.data_append, hb1, hb2, hb5, List.append_assoc, List.cons_append,
      List.nil_append]
    simpa [List.append_assoc] using
      globMatchL_form_pattern
        ("trend_analysis".data ++ (optPart "end_date" ed).data)
        (":period:".data ++ period.data ++ (optPart "start_date" sd).data) hp hf

theorem questionScope_matches {pfx f q : String} (hp : GlobLit pfx) (hf : GlobLit f)
    (hq : GlobLit q) :
    ∀ sp : CacheKeySpec, sp.isQuestionScope f q →
      globMatch (pfx ++ ":*:form_id:" ++ f ++ "*:question_id:" ++ q ++ "*")
        (sp.render pfx) = true := by
  have hb1 : (":*:form_id:" : String).data = ':' :: '*' :: ":form_id:".data := rfl
  have hb2 : ("*" : String).data = ['*'] := rfl
  have hb4 : (":question_analytics" : String).data = ':' :: "question_analytics".data := rfl
  have hb6 : ("*:question_id:" : String).data = '*' :: ":question_id:".data := rfl
  intro sp hsp
  cases sp with
  | formSummary fid sd ed => exact absurd hsp (by simp [CacheKeySpec.isQuestionScope])
  | questionAnalytics fid qid sd ed =>
    rcases hsp with ⟨hfid, hqid⟩
    subst hfid
    subst hqid
    unfold globMatch
    rw [CacheKeySpec.render, questionAnalyticsKey_data]
    simp only [String.data_append, hb1, hb2, hb4, hb6, List.append_assoc, List.cons_append,
      List.nil_append]
    simpa [List.append_assoc] using
      globMatchL_question_pattern
        ("question_analytics".data ++ (optPart "end_date" ed).data)
        ((optPart "start_date" sd).data) hp hf hq
  | trendAnalysis fid period sd ed => exact absurd hsp (by simp [CacheKeySpec.isQuestionScope])

theorem allScope_matches {pfx : String} (hp : GlobLit pfx) :
    ∀ sp : CacheKeySpec, globMatch (pfx ++ ":*") (sp.render pfx) = true := by
  have hb7 : (":*" : String).data = [':', '*'] := rfl
  have hb3 : (":form_summary" : String).data = ':' :: "form_summary".data := rfl
  have hb4 : (":question_analytics" : String).data = ':' :: "question_analytics".data := rfl
  have hb5 : (":trend_analysis" : String).data = ':' :: "trend_analysis".data := rfl
  intro sp
  cases sp with
  | formSummary fid sd ed =>
    unfold globMatch
    rw [CacheKeySpec.render, formSummaryKey_data]
    simp only [String.data_append, hb7, hb3, List.append_assoc, List.cons_append,
      List.nil_append]
    simpa [List.append_assoc] using
      globMatchL_all_pattern
        ("form_summary".data ++ (optPart "end_date" ed).data ++ ":form_id:".data
          ++ fid.data ++ (optPart "start_date" sd).data) hp
  | questionAnalytics fid qid sd ed =>
    unfold globMatch
    rw [CacheKeySpec.render, questionAnalyticsKey_data]
    simp only [String.data_append, hb7, hb4, List.append_assoc, List.cons_append,
      List.nil_append]
    simpa [List.append_assoc] using
      globMatchL_all_pattern
        ("question_analytics".data ++ (optPart "end_date" ed).data
          ++ ":form_id:".data ++ fid.data ++ ":question_id:".data ++ qid.data
          ++ (optPart "start_date" sd).data) hp
  | trendAnalysis fid period sd ed =>
    unfold globMatch
    rw [CacheKeySpec.render, trendAnalysisKey_data]
    simp only [String.data_append, hb7, hb5, List.append_assoc, List.cons_append,
      List.nil_append]
    simpa [List.append_assoc] using
      globMatchL_all_pattern
        ("trend_analysis".data ++ (optPart "end_date" ed).data
          ++ ":form_id:".data ++ fid.data ++ ":period:".data ++ period.data
          ++ (optPart "start_date" sd).data) hp

/-! ## File-upload domain model (models.py)

`datetime` values appear in two roles: `expires_at`/cutoff comparisons
(modelled as integer timestamps; DynamoDB compares their `isoformat()`
strings, which for a fixed format agrees with chronological order) and
`created_at.strftime("%Y/%m/%d")` inside the storage key (modelled as a
calendar date rendered with zero padding).  `uuid.uuid4()` values are
external randomness, passed in as explicit token parameters.  `ValueError`
raised in `__post_init__` is the spec's `InvalidFile`, the `ValueError`
raised by `mark_as_uploaded` is the spec's `IllegalTransition`.
-/

inductive FileStatus where
  | pending
  | uploaded
  | processing
  | completed
  | failed
  | deleted
  deriving DecidableEq

def FileStatus.value : FileStatus → String
  | .pending => "pending"
  | .uploaded => "uploaded"
  | .processing => "processing"
  | .completed => "completed"
  | .failed => "failed"
  | .deleted => "deleted"

inductive UploadPurpose where
  | formAttachment
  | userAvatar
  | document
  | image
  | temporary
  deriving DecidableEq

def UploadPurpose.value : UploadPurpose → String
  | .formAttachment => "form_attachment"
  | .userAvatar => "user_avatar"
  | .document => "document"
  | .image => "image"
  | .temporary => "temporary"

/-- Zero-padded decimal rendering, as CPython `strftime` pads `%Y`/`%m`/`%d`. -/
def padNat (width n : Nat) : String :=
  let s := toString n
  if s.length < width then String.mk (List.replicate (width - s.length) '0') ++ s else s

structure Date where
  year : Nat
  month : Nat
  day : Nat
  deriving DecidableEq

/-- Model of `created_at.strftime("%Y/%m/%d")`. -/
def Date.strftimeYmd (d : Date) : String :=
  padNat 4 d.year ++ "/" ++ padNat 2 d.month ++ "/" ++ padNat 2 d.day

structure FileMetadataM where
  contentType : String
  sizeBytes : Int
  checksum : Option String
  originalFilename : Option String
  deriving DecidableEq

structure UploadRequestM where
  id : String
  filename : String
  purpose : UploadPurpose
  metadata : Option FileMetadataM
  userId : Option String
  formId : Option String
  expiresAt : Int
  createdAt : Date
  status : FileStatus
  s3Key : String
  presignedUrl : Option String
  deriving DecidableEq

/-- Domain failures: `InvalidFile` for `__post_init__`'s
`ValueError("Filename is required")`, `IllegalTransition` for
`mark_as_uploaded`'s `ValueError(f"Cannot mark as uploaded from ...")`. -/
inductive DomainError where
  | invalidFile (msg : String)
  | illegalTransition (fromStatus : FileStatus)
  deriving DecidableEq

/-- Model of `UploadRequest._generate_s3_key`:
`f"{uuid.uuid4()}_{filename}"` under
`f"{purpose}/{user_id}/{Y/m/d}/..."` when `user_id` is truthy, else
`f"{purpose}/anonymous/{Y/m/d}/..."`. -/
def generateS3Key (purpose : UploadPurpose) (userId : Option String) (createdAt : Date)
    (uniquenessToken : String) (filename : String) : String :=
  let datePart := createdAt.strftimeYmd
  let uniqueFilename := uniquenessToken ++ "_" ++ filename
  match userId with
  | some uid =>
    if uid = "" then purpose.value ++ "/anonymous/" ++ datePart ++ "/" ++ uniqueFilename
    else purpose.value ++ "/" ++ uid ++ "/" ++ datePart ++ "/" ++ uniqueFilename
  | none => purpose.value ++ "/anonymous/" ++ datePart ++ "/" ++ uniqueFilename

/-- Dataclass construction followed by `__post_init__`: an empty filename
raises before anything else; a falsy `s3_key` (absent or `""`) is replaced
by the derived storage key.  The fresh `uuid.uuid4()` drawn inside
`_generate_s3_key` enters as `uniquenessToken`. -/
def UploadRequest.construct (id filename : String) (purpose : UploadPurpose)
    (metadata : Option FileMetadataM) (userId formId : Option String)
    (expiresAt : Int) (createdAt : Date) (status : FileStatus)
    (s3KeyArg presignedUrl : Option String) (uniquenessToken : String) :
    Except DomainError UploadRequestM :=
  if filename = "" then .error (.invalidFile "Filename is required")
  else
    .ok
      { id := id
        filename := filename
        purpose := purpose
        metadata := metadata
        userId := userId
        formId := formId
        expiresAt := expiresAt
        createdAt := createdAt
        status := status
        s3Key :=
          match s3KeyArg with
          | none => generateS3Key purpose userId createdAt uniquenessToken filename
          | some k =>
            if k = "" then generateS3Key purpose userId createdAt uniquenessToken filename
            else k
        presignedUrl := presignedUrl }

/-- Model of `mark_as_uploaded`: raises unless the status is `PENDING`. -/
def UploadRequestM.markAsUploaded (r : UploadRequestM) : Except DomainError UploadRequestM :=
  if r.status ≠ .pending then .error (.illegalTransition r.status)
  else .ok { r with status := .uploaded }

/-- Model of `mark_as_failed`: unconditionally sets `FAILED` (the source has no
guard). -/
def UploadRequestM.markAsFailed (r : UploadRequestM) : Except DomainError UploadRequestM :=
  .ok { r with status := .failed }

/-- Model of `mark_as_deleted`: unconditionally sets `DELETED`. -/
def UploadRequestM.markAsDeleted (r : UploadRequestM) : Except DomainError UploadRequestM :=
  .ok { r with status := .deleted }

/-! ## Cleanup sweep (use_cases.py lines 358-402, dynamodb_repository.py 103-113) -/

/-- Model of `find_expired_requests(before_date)`: a scan filtered on
`expires_at < before_date` only — the status is not part of the filter. -/
def findExpiredRequests (repo : List UploadRequestM) (beforeDate : Int) :
    List UploadRequestM :=
  repo.filter fun r => r.expiresAt < beforeDate

/-- The storage / repository collaborators of the sweep; `.error` is a
raised exception. -/
structure CleanupEnv where
  fileExists : String → Except String Bool
  deleteFile : String → Except String Bool
  updateOk : UploadRequestM → Except String Unit

/-- What one loop iteration of `CleanupExpiredUploadsUseCase.execute` does
to one expired request: the in-memory entity afterwards, whether
`upload_repo.update` persisted it, and the statistics increments. -/
structure CleanupOutcome where
  entity : UploadRequestM
  persisted : Bool
  deletedFromStorage : Nat
  updatedInDb : Nat
  errors : Nat
  deriving DecidableEq

/-- One iteration of the sweep loop.  Mirrors the `try` body: entities not
in `{PENDING, FAILED}` are skipped; a raise from `file_exists`,
`delete_file` or `update` lands in `except`, incrementing `errors` and
keeping whatever increments already happened. -/
def cleanupProcessOne (env : CleanupEnv) (r : UploadRequestM) : CleanupOutcome :=
  if r.status = .pending ∨ r.status = .failed then
    match env.fileExists r.s3Key with
    | .error _ => ⟨r, false, 0, 0, 1⟩
    | .ok ex =>
      let deleted : Option Nat :=
        if ex then
          match env.deleteFile r.s3Key with
          | .error _ => none
          | .ok succ => some (if succ then 1 else 0)
        else some 0
      match deleted with
      | none => ⟨r, false, 0, 0, 1⟩
      | some d =>
        let marked := { r with status := FileStatus.deleted }
        match env.updateOk marked with
        | .error _ => ⟨marked, false, d, 0, 1⟩
        | .ok _ => ⟨marked, true, d, 1, 0⟩
  else ⟨r, false, 0, 0, 0⟩

structure CleanupStats where
  totalFound : Nat
  deletedFromStorage : Nat
  updatedInDb : Nat
  errors : Nat
  deriving DecidableEq

/-- Model of `CleanupExpiredUploadsUseCase.execute(before_date)`: fetch the expired
requests, set `total_found` to their number, loop, and return the stats;
the repository is updated for each entity whose `update` call succeeded. -/
def cleanupExecute (env : CleanupEnv) (repo : List UploadRequestM) (beforeDate : Int) :
    CleanupStats × List UploadRequestM :=
  let expired := findExpiredRequests repo beforeDate
  let outcomes := expired.map (cleanupProcessOne env)
  let stats : CleanupStats :=
    { totalFound := expired.length
      deletedFromStorage := (outcomes.map CleanupOutcome.deletedFromStorage).sum
      updatedInDb := (outcomes.map CleanupOutcome.updatedInDb).sum
      errors := (outcomes.map CleanupOutcome.errors).sum }
  let finalRepo := repo.map fun r =>
    if r.expiresAt < beforeDate then
      let o := cleanupProcessOne env r
      if o.persisted then o.entity else r
    else r
  (stats, finalRepo)

/-! ## Determinism of `_get_cache_key` -/

theorem string_ext {s t : String} (h : s.data = t.data) : s = t := by
  cases s
  cases t
  exact congrArg String.mk h

theorem filterMap_renderParam_eq :
    ∀ l : List CacheParam, l.filterMap renderParam
      = (l.filter fun p => p.2.isSome).map fun p => p.1 ++ ":" ++ p.2.getD ""
  | [] => rfl
  | (k, none) :: l => by
      simp [renderParam, List.filterMap_cons, filterMap_renderParam_eq l]
  | (k, some v) :: l => by
      simp [renderParam, List.filterMap_cons, filterMap_renderParam_eq l]

/-- Strict ordering on parameters by name; two parameters with distinct
names placed in `sorted` order are relateed by it. -/
def paramKeyLt (a b : CacheParam) : Prop := strLt a.1.data b.1.data = true

theorem paramKeyLt_antisymm {a b : CacheParam} (h1 : paramKeyLt a b) (h2 : paramKeyLt b a) :
    a = b := (strLt_asymm h1 h2).elim

theorem sorted_strict_of_pairwise_le {l : List CacheParam}
    (hs : l.Pairwise (fun x y => paramLe x y = true))
    (hn : (l.map Prod.fst).Nodup) : l.Pairwise paramKeyLt := by
  have hne : l.Pairwise (fun x y => x.1 ≠ y.1) := List.pairwise_map.mp hn
  refine (hs.and hne).imp ?_
  rintro a b ⟨hle, hnekey⟩
  unfold paramLe nameLe at hle
  simp only [Bool.not_eq_true'] at hle
  cases h2 : strLt a.1.data b.1.data with
  | true => exact h2
  | false => exact absurd (string_ext (strLt_eq_of_not h2 hle)) hnekey

theorem eq_of_perm_sorted_strict {l1 l2 : List CacheParam}
    (hp : List.Perm l1 l2) (h1 : l1.Pairwise paramKeyLt) (h2 : l2.Pairwise paramKeyLt) :
    l1 = l2 := by
  haveI : IsAntisymm CacheParam paramKeyLt :=
    ⟨fun a b ha hb => paramKeyLt_antisymm ha hb⟩
  exact List.eq_of_perm_of_sorted hp h1 h2

/-- The canonical (sorted, `None`-free) parameter list underlying a key is
determined by the set of non-`None` parameters alone. -/
theorem sortParams_filter_eq {l1 l2 : List CacheParam}
    (h1 : (l1.map Prod.fst).Nodup) (h2 : (l2.map Prod.fst).Nodup)
    (hperm : List.Perm (l1.filter fun p => p.2.isSome) (l2.filter fun p => p.2.isSome)) :
    (sortParams l1).filter (fun p => p.2.isSome)
      = (sortParams l2).filter (fun p => p.2.isSome) := by
  have nodup1 : ((sortParams l1).map Prod.fst).Nodup :=
    ((sortParams_perm l1).map Prod.fst).symm.nodup h1
  have nodup2 : ((sortParams l2).map Prod.fst).Nodup :=
    ((sortParams_perm l2).map Prod.fst).symm.nodup h2
  apply eq_of_perm_sorted_strict
  · exact (((sortParams_perm l1).filter _).trans hperm).trans
      ((sortParams_perm l2).filter _).symm
  · exact sorted_strict_of_pairwise_le
      ((pairwise_sortParams l1).sublist (List.filter_sublist _))
      (nodup1.sublist ((List.filter_sublist _).map Prod.fst))
  · exact sorted_strict_of_pairwise_le
      ((pairwise_sortParams l2).sublist (List.filter_sublist _))
      (nodup2.sublist ((List.filter_sublist _).map Prod.fst))

/-! ## Claim C7 -/

/-- C7: cache key composition (`_get_cache_key`) is a deterministic
function of the resource type and the set of named, non-`None` parameter
values: parameters are rendered sorted by field name with the `:`
separator, `None`-valued parameters are omitted, so two compositions with
the same resource type and the same non-`None` parameter values yield
identical key strings regardless of call-site argument order. -/
theorem C7_getCacheKey_deterministic (pfx keyType : String) (l1 l2 : List CacheParam)
    (h1 : (l1.map Prod.fst).Nodup) (h2 : (l2.map Prod.fst).Nodup)
    (hperm : List.Perm (l1.filter fun p => p.2.isSome) (l2.filter fun p => p.2.isSome)) :
    getCacheKey pfx keyType l1 = getCacheKey pfx keyType l2 := by
  unfold getCacheKey
  rw [filterMap_renderParam_eq, filterMap_renderParam_eq, sortParams_filter_eq h1 h2 hperm]

/-- Witness for C7 at the spec's example: `form_summary` with
`form_id="X"`, `start`/`end` `None`, composed under two argument orders. -/
theorem C7_getCacheKey_deterministic_witness :
    ((([("form_id", some "X"), ("start_date", none), ("end_date", none)] :
        List CacheParam).map Prod.fst).Nodup) ∧
    ((([("end_date", none), ("start_date", none), ("form_id", some "X")] :
        List CacheParam).map Prod.fst).Nodup) ∧
    List.Perm
      (([("form_id", some "X"), ("start_date", none), ("end_date", none)] :
        List CacheParam).filter fun p => p.2.isSome)
      (([("end_date", none), ("start_date", none), ("form_id", some "X")] :
        List CacheParam).filter fun p => p.2.isSome) ∧
    getCacheKey "analytics" "form_summary"
        [("form_id", some "X"), ("start_date", none), ("end_date", none)]
      = getCacheKey "analytics" "form_summary"
        [("end_date", none), ("start_date", none), ("form_id", some "X")] :=
  ⟨by decide, by decide, by decide,
    C7_getCacheKey_deterministic "analytics" "form_summary" _ _
      (by decide) (by decide) (by decide)⟩

/-! ## Claim C1 -/

/-- The Redis keyspace holding exactly the rendered keys of a population
of cache-service entries. -/
def renderedStore (pfx : String) (specs : List (CacheKeySpec × RedisEntry)) : RedisState :=
  ⟨specs.map fun se => ((se.1).render pfx, se.2), false⟩

/-- C1 (amended): every scope invalidation removes every stored cache
entry whose key lies inside scope S, and the value returned plus the
number of surviving entries accounts for exactly the entries removed; the
global scope is exact (it removes everything and returns the full count).
However the form and question scopes are NOT exact on the other side: the
glob patterns end in `*` directly after the identifier, so an entry of a
distinct form whose identifier extends the invalidated identifier as a
proper prefix is also removed (see the counterexample). -/
theorem C1_invalidation_scope (pfx f q : String)
    (hp : GlobLit pfx) (hf : GlobLit f) (hq : GlobLit q)
    (specs : List (CacheKeySpec × RedisEntry)) :
    (∀ se ∈ specs, (se.1 : CacheKeySpec).formId = f →
      ((se.1).render pfx, se.2) ∉
        (invalidateFormCache pfx f (renderedStore pfx specs)).2.entries) ∧
    ((invalidateFormCache pfx f (renderedStore pfx specs)).1
      + (invalidateFormCache pfx f (renderedStore pfx specs)).2.entries.length
      = specs.length) ∧
    (∀ se ∈ specs, (se.1 : CacheKeySpec).isQuestionScope f q →
      ((se.1).render pfx, se.2) ∉
        (invalidateQuestionCache pfx f q (renderedStore pfx specs)).2.entries) ∧
    ((invalidateQuestionCache pfx f q (renderedStore pfx specs)).1
      + (invalidateQuestionCache pfx f q (renderedStore pfx specs)).2.entries.length
      = specs.length) ∧
    ((invalidateAllAnalyticsCache pfx (renderedStore pfx specs)).2.entries = []) ∧
    ((invalidateAllAnalyticsCache pfx (renderedStore pfx specs)).1 = specs.length) := by
  refine ⟨?_, ?_, ?_, ?_, ?_, ?_⟩
  · intro se hse hfid
    exact cacheDeletePattern_removes (formScope_matches hp hf se.1 hfid) se.2
      (List.mem_map.mpr ⟨se, hse, rfl⟩)
  · have := cacheDeletePattern_count
      (specs.map fun se => ((se.1).render pfx, se.2))
      (pfx ++ ":*:form_id:" ++ f ++ "*")
    rwa [List.length_map] at this
  · intro se hse hq'
    exact cacheDeletePattern_removes (questionScope_matches hp hf hq se.1 hq') se.2
      (List.mem_map.mpr ⟨se, hse, rfl⟩)
  · have := cacheDeletePattern_count
      (specs.map fun se => ((se.1).render pfx, se.2))
      (pfx ++ ":*:form_id:" ++ f ++ "*:question_id:" ++ q ++ "*")
    rwa [List.length_map] at this
  · refine (cacheDeletePattern_all ?_).1
    intro kv hkv
    rcases List.mem_map.mp hkv with ⟨se, hse, rfl⟩
    exact allScope_matches hp se.1
  · have hall' : ∀ kv ∈ specs.map fun se => ((se.1).render pfx, se.2),
        globMatch (pfx ++ ":*") kv.1 = true := by
      intro kv hkv
      rcases List.mem_map.mp hkv with ⟨se, hse, rfl⟩
      exact allScope_matches hp se.1
    have hall := cacheDeletePattern_all hall'
    rw [List.length_map] at hall
    exact hall.2

/-- C1 counterexample: invalidating the scope of form `f1` deletes the
stored `form_summary` entry of the distinct form `f12`, whose identifier
merely shares the prefix — over-invalidation, contradicting "removes no
entry whose key lies outside S". -/
theorem C1_over_invalidation_cex :
    ("f12" : String) ≠ "f1" ∧
    (invalidateFormCache "analytics" "f1"
      (renderedStore "analytics"
        [(CacheKeySpec.formSummary "f12" none none, ⟨"v", 60⟩)])).2.entries = [] ∧
    (invalidateFormCache "analytics" "f1"
      (renderedStore "analytics"
        [(CacheKeySpec.formSummary "f12" none none, ⟨"v", 60⟩)])).1 = 1 :=
  ⟨by decide, by decide, by decide⟩

/-- Witness for C1 at a concrete one-entry store for form `f1`. -/
theorem C1_invalidation_scope_witness :
    GlobLit "analytics" ∧ GlobLit "f1" ∧ GlobLit "q1" ∧
    ((CacheKeySpec.formSummary "f1" none none).render "analytics", (⟨"v", 60⟩ : RedisEntry)) ∉
      (invalidateFormCache "analytics" "f1"
        (renderedStore "analytics"
          [(CacheKeySpec.formSummary "f1" none none, ⟨"v", 60⟩)])).2.entries ∧
    (invalidateAllAnalyticsCache "analytics"
      (renderedStore "analytics"
        [(CacheKeySpec.formSummary "f1" none none, ⟨"v", 60⟩)])).2.entries = [] :=
  ⟨by decide, by decide, by decide,
    (C1_invalidation_scope "analytics" "f1" "q1" (by decide) (by decide) (by decide)
      [(CacheKeySpec.formSummary "f1" none none, ⟨"v", 60⟩)]).1
      (CacheKeySpec.formSummary "f1" none none, ⟨"v", 60⟩) (by simp) rfl,
    (C1_invalidation_scope "analytics" "f1" "q1" (by decide) (by decide) (by decide)
      [(CacheKeySpec.formSummary "f1" none none, ⟨"v", 60⟩)]).2.2.2.2.1⟩

/-! ## Claim C8 -/

/-- C8: every cache operation absorbs backing-store errors and never
propagates them: when the key-value store raises (`failing` keyspace),
`get` returns a miss (`None`), `set` and `delete` return `False`, and
`delete_pattern` returns `0` — and the store is left untouched. -/
theorem C8_cache_errors_absorbed {α : Type} (ser : Serializer α) (defaultTTL : Int)
    (entries : List (String × RedisEntry)) (key pat : String) (v : α) (ttl : Option Int) :
    cacheGet ser ⟨entries, true⟩ key = none ∧
    cacheSet ser defaultTTL ⟨entries, true⟩ key v ttl = (false, ⟨entries, true⟩) ∧
    cacheDelete ⟨entries, true⟩ key = (false, ⟨entries, true⟩) ∧
    cacheDeletePattern ⟨entries, true⟩ pat = (0, ⟨entries, true⟩) :=
  ⟨rfl, rfl, rfl, rfl⟩

/-! ## Claim C9 -/

/-- C9 (amended): on a healthy store, `set(key, v, ttl=60)` followed
immediately by `get(key)` returns `v` (provided the serializer
round-trips, as `json.loads ∘ json.dumps` does); the stored entry is the
pair (serialized value, TTL) and the read leaves the store untouched —
the service maintains no per-entry `hit_count` (the `CachedResult`
model's field is never used), so no counter is incremented. -/
theorem C9_cache_roundtrip {α : Type} (ser : Serializer α) (defaultTTL : Int)
    (entries : List (String × RedisEntry)) (key : String) (v : α)
    (hser : ser.loads (ser.dumps v) = some v) (hne : ser.dumps v ≠ "") :
    (cacheSet ser defaultTTL ⟨entries, false⟩ key v (some 60)).1 = true ∧
    (cacheSet ser defaultTTL ⟨entries, false⟩ key v (some 60)).2.entries
      = (key, ⟨ser.dumps v, 60⟩) :: entries.filter (fun kv => kv.1 != key) ∧
    cacheGet ser (cacheSet ser defaultTTL ⟨entries, false⟩ key v (some 60)).2 key
      = some v := by
  refine ⟨rfl, rfl, ?_⟩
  simp [cacheGet, cacheSet, redisGet, redisSetex, effectiveTTL, List.lookup, hne, hser]

/-- Decimal digit value of a character, if any. -/
def digitVal? (c : Char) : Option Nat :=
  if 48 ≤ c.toNat ∧ c.toNat ≤ 57 then some (c.toNat - 48) else none

/-- Plain decimal parser used to give the abstract serializer a concrete,
executable instance. -/
def parseDecimal : List Char → Nat → Option Nat
  | [], acc => some acc
  | c :: cs, acc =>
    match digitVal? c with
    | none => none
    | some d => parseDecimal cs (acc * 10 + d)

/-- The `json` collaborator instantiated on naturals for concrete runs. -/
def natSerializer : Serializer Nat :=
  ⟨fun n => toString n, fun s => if s.data.isEmpty then none else parseDecimal s.data 0⟩

/-- C9 counterexample: after `set("k", 5, ttl=60)` on an empty healthy
store, the complete stored state is the single entry
`("k", value="5", ttl=60)` — it carries no `hit_count` field — and
`get("k")` returns the value while the store stays bit-identical, so the
claim's "hit_count incremented by exactly 1" is false of the code. -/
theorem C9_no_hit_count_cex :
    (cacheSet natSerializer 3600 ⟨[], false⟩ "k" 5 (some 60)).2
      = ⟨[("k", ⟨"5", 60⟩)], false⟩ ∧
    cacheGet natSerializer (cacheSet natSerializer 3600 ⟨[], false⟩ "k" 5 (some 60)).2 "k"
      = some 5 :=
  ⟨by decide, by decide⟩

/-- Witness for C9 with the natural-number serializer at `v = 5`. -/
theorem C9_cache_roundtrip_witness :
    natSerializer.loads (natSerializer.dumps 5) = some 5 ∧
    natSerializer.dumps 5 ≠ "" ∧
    cacheGet natSerializer
      (cacheSet natSerializer 3600 ⟨[], false⟩ "k" 5 (some 60)).2 "k" = some 5 :=
  ⟨by decide, by decide,
    (C9_cache_roundtrip natSerializer 3600 [] "k" 5 (by decide) (by decide)).2.2⟩

/-! ## Claim C10 -/

/-- C10: `CacheService.set(key, value, ttl=0)` stores the entry with the
process-wide default TTL (`settings.cache_ttl`, default 3600) rather than
a zero TTL: `ttl = ttl or self.default_ttl` replaces every falsy `ttl`
argument — `0` as well as `None` — with the default before the entry is
written. -/
theorem C10_falsy_ttl_default {α : Type} (ser : Serializer α) (defaultTTL : Int)
    (entries : List (String × RedisEntry)) (key : String) (v : α) (ttl : Option Int)
    (httl : ttl = some 0 ∨ ttl = none) :
    effectiveTTL defaultTTL ttl = defaultTTL ∧
    defaultCacheTTL = 3600 ∧
    cacheSet ser defaultTTL ⟨entries, false⟩ key v ttl
      = (true, ⟨(key, ⟨ser.dumps v, defaultTTL⟩) :: entries.filter (fun kv => kv.1 != key),
          false⟩) := by
  have he : effectiveTTL defaultTTL ttl = defaultTTL := by
    rcases httl with rfl | rfl <;> rfl
  refine ⟨he, rfl, ?_⟩
  simp [cacheSet, redisSetex, he]

/-- Witness for C10 at `ttl = 0` with the default 3600. -/
theorem C10_falsy_ttl_default_witness :
    ((some 0 : Option Int) = some 0 ∨ (some 0 : Option Int) = none) ∧
    cacheSet natSerializer defaultCacheTTL ⟨[], false⟩ "k" 5 (some 0)
      = (true, ⟨[("k", ⟨"5", 3600⟩)], false⟩) := by
  refine ⟨Or.inl rfl, ?_⟩
  have h := (C10_falsy_ttl_default natSerializer defaultCacheTTL [] "k" 5 (some 0)
    (Or.inl rfl)).2.2
  simpa [defaultCacheTTL, natSerializer] using h

/-! ## Claim C5 -/

/-- C5: constructing an `UploadRequest` with an empty filename always
fails with `InvalidFile` (`__post_init__` raises
`ValueError("Filename is required")` before anything else), for every
purpose and every combination of the optional arguments, and no entity is
produced. -/
theorem C5_empty_filename_fails (id : String) (purpose : UploadPurpose)
    (metadata : Option FileMetadataM) (userId formId : Option String)
    (expiresAt : Int) (createdAt : Date) (status : FileStatus)
    (s3KeyArg presignedUrl : Option String) (token : String) :
    UploadRequest.construct id "" purpose metadata userId formId expiresAt createdAt status
      s3KeyArg presignedUrl token = .error (.invalidFile "Filename is required") := rfl

/-! ## Claims C3 and C4 -/

/-- A concrete request used for concrete transition runs. -/
def sampleRequest (st : FileStatus) : UploadRequestM :=
  ⟨"id-1", "test.jpg", .temporary, none, none, none, 0, ⟨2025, 1, 1⟩, st, "key", none⟩

/-- C4: for every `UploadRequest` in status `Pending`, the first
`mark_as_uploaded()` succeeds and sets `Uploaded`; a second call fails
with `IllegalTransition`; in general `mark_as_uploaded()` fails whenever
the status is not `Pending`, returning the error without producing a
modified entity (the raise precedes the assignment, so the status is
unchanged on failure). -/
theorem C4_markAsUploaded (r : UploadRequestM) (hr : r.status = .pending) :
    r.markAsUploaded = .ok { r with status := .uploaded } ∧
    ({ r with status := FileStatus.uploaded } : UploadRequestM).markAsUploaded
      = .error (.illegalTransition .uploaded) ∧
    (∀ r' : UploadRequestM, r'.status ≠ .pending →
      r'.markAsUploaded = .error (.illegalTransition r'.status)) := by
  refine ⟨?_, rfl, ?_⟩
  · simp [UploadRequestM.markAsUploaded, hr]
  · intro r' hr'
    simp [UploadRequestM.markAsUploaded, hr']

/-- Witness for C4 at a concrete pending request. -/
theorem C4_markAsUploaded_witness :
    (sampleRequest .pending).status = .pending ∧
    (sampleRequest .pending).markAsUploaded
      = .ok { sampleRequest .pending with status := .uploaded } :=
  ⟨rfl, (C4_markAsUploaded (sampleRequest .pending) rfl).1⟩

/-- C3 (amended): `mark_as_failed()` carries no guard in the source: it
succeeds from every status — terminal ones included — and sets the status
to `Failed`.  In particular a request in status `Deleted` does transition
to `Failed`, so "succeeds precisely when the current status is
non-terminal" does not hold of the code. -/
theorem C3_markAsFailed_unguarded (r : UploadRequestM) :
    r.markAsFailed = .ok { r with status := .failed } := rfl

/-- C3 counterexample: a request in terminal status `Deleted` is moved to
`Failed` by `mark_as_failed()`, which succeeds — contradicting both
"succeeds precisely when the current status is non-terminal" and "a
request whose status is Deleted never transitions to Failed". -/
theorem C3_deleted_to_failed_cex :
    (sampleRequest .deleted).status = .deleted ∧
    (sampleRequest .deleted).markAsFailed = .ok (sampleRequest .failed) :=
  ⟨rfl, rfl⟩

/-! ## Claim C6 -/

theorem generateS3Key_eq (p : UploadPurpose) (u : Option String) (d : Date) (t f : String) :
    generateS3Key p u d t f
      = p.value ++ "/" ++ (match u with
          | some uid => if uid = "" then "anonymous" else uid
          | none => "anonymous") ++ "/" ++ d.strftimeYmd ++ "/" ++ t ++ "_" ++ f := by
  have h : ("/anonymous/" : String) = "/" ++ "anonymous" ++ "/" := by decide
  cases u with
  | none => simp [generateS3Key, h, String.append_assoc]
  | some uid =>
    by_cases hu : uid = ""
    · simp [generateS3Key, hu, h, String.append_assoc]
    · simp [generateS3Key, hu, String.append_assoc]

theorem generateS3Key_token_ne (p : UploadPurpose) (u : Option String) (d : Date)
    {t1 t2 : String} (f : String) (hne : t1 ≠ t2) :
    generateS3Key p u d t1 f ≠ generateS3Key p u d t2 f := by
  rw [generateS3Key_eq, generateS3Key_eq]
  intro h
  apply hne
  have hd := congrArg String.data h
  simp only [String.data_append, List.append_assoc] at hd
  have h1 := List.append_cancel_left hd
  have h2 := List.append_cancel_left h1
  have h3 := List.append_cancel_left h2
  have h4 := List.append_cancel_left h3
  have h5 := List.append_cancel_left h4
  have h6 := List.append_cancel_left h5
  exact string_ext (List.append_cancel_right h6)

/-- C6: for every non-empty filename `f`, purpose `p` and optional user id
`u`, a constructed `UploadRequest` (with no storage key supplied) derives
its storage key as
`{p}/{u or "anonymous"}/{Y/M/D}/{uniqueness_token}_{f}`, and two distinct
constructions with identical `(f, p, u)` on the same day yield distinct
storage keys whenever their uniqueness tokens differ. -/
theorem C6_s3Key_format_unique (f : String) (hf : f ≠ "")
    (p : UploadPurpose) (u : Option String) (d : Date)
    (id1 : String) (metadata : Option FileMetadataM) (formId : Option String)
    (e : Int) (purl : Option String) (t1 t2 : String) (hne : t1 ≠ t2) :
    (∀ r : UploadRequestM,
      UploadRequest.construct id1 f p metadata u formId e d .pending none purl t1 = .ok r →
      r.s3Key = p.value ++ "/" ++ (match u with
        | some uid => if uid = "" then "anonymous" else uid
        | none => "anonymous") ++ "/" ++ d.strftimeYmd ++ "/" ++ t1 ++ "_" ++ f) ∧
    generateS3Key p u d t1 f ≠ generateS3Key p u d t2 f := by
  constructor
  · intro r hr
    unfold UploadRequest.construct at hr
    rw [if_neg hf] at hr
    injection hr with hrec
    subst hrec
    exact generateS3Key_eq p u d t1 f
  · exact generateS3Key_token_ne p u d f hne

/-- Witness for C6 at concrete inputs, including the spec's rendered key
shape with zero-padded date segments. -/
theorem C6_s3Key_format_unique_witness :
    ("test.jpg" : String) ≠ "" ∧ ("t1" : String) ≠ "t2" ∧
    generateS3Key .userAvatar (some "user123") ⟨2025, 3, 7⟩ "t1" "test.jpg"
      = "user_avatar/user123/2025/03/07/t1_test.jpg" ∧
    generateS3Key .userAvatar (some "user123") ⟨2025, 3, 7⟩ "t1" "test.jpg"
      ≠ generateS3Key .userAvatar (some "user123") ⟨2025, 3, 7⟩ "t2" "test.jpg" :=
  ⟨by decide, by decide, by decide,
    (C6_s3Key_format_unique "test.jpg" (by decide) .userAvatar (some "user123")
      ⟨2025, 3, 7⟩ "id" none none 0 none "t1" "t2" (by decide)).2⟩

/-! ## Claim C2 -/

/-- Scenario entity A: `Pending`, expired yesterday. -/
def entityA : UploadRequestM :=
  ⟨"A", "a.txt", .temporary, none, none, none, -86400, ⟨2025, 1, 1⟩, .pending, "k/a", none⟩

/-- Scenario entity B: `Uploaded`, expired yesterday. -/
def entityB : UploadRequestM :=
  ⟨"B", "b.txt", .temporary, none, none, none, -86400, ⟨2025, 1, 1⟩, .uploaded, "k/b", none⟩

/-- Scenario entity C: `Pending`, expiring tomorrow. -/
def entityC : UploadRequestM :=
  ⟨"C", "c.txt", .temporary, none, none, none, 86400, ⟨2025, 1, 1⟩, .pending, "k/c", none⟩

/-- Collaborators that never raise: no stored object exists, deletion
reports success, updates succeed. -/
def healthyEnv : CleanupEnv := ⟨fun _ => .ok false, fun _ => .ok true, fun _ => .ok ()⟩

/-- C2 (amended): in the A/B/C scenario with cutoff `now`, the sweep
returns `total_found = 2` — `find_expired_requests` filters on
`expires_at` alone, so the expired-but-`Uploaded` B is counted as found —
while B and C are left untouched and A is marked `Deleted`.  In general:
`total_found` counts every entity expired before the cutoff regardless of
status; among those, only entities in `{Pending, Failed}` are deleted from
storage and marked `Deleted` (others are returned unchanged); per-entity
failures add exactly one to the `errors` counter, and the sweep aggregates
an outcome for every expired entity rather than aborting. -/
theorem C2_cleanup_sweep :
    ((cleanupExecute healthyEnv [entityA, entityB, entityC] 0).1
      = ⟨2, 0, 1, 0⟩) ∧
    ((cleanupExecute healthyEnv [entityA, entityB, entityC] 0).2
      = [{ entityA with status := .deleted }, entityB, entityC]) ∧
    (∀ (env : CleanupEnv) (repo : List UploadRequestM) (cutoff : Int),
      (cleanupExecute env repo cutoff).1.totalFound
        = (repo.filter fun r => r.expiresAt < cutoff).length) ∧
    (∀ (env : CleanupEnv) (r : UploadRequestM), r.status ≠ .pending → r.status ≠ .failed →
      cleanupProcessOne env r = ⟨r, false, 0, 0, 0⟩) ∧
    (∀ (env : CleanupEnv) (r : UploadRequestM) (ex : Bool),
      (r.status = .pending ∨ r.status = .failed) →
      env.fileExists r.s3Key = .ok ex →
      env.deleteFile r.s3Key = .ok true →
      env.updateOk { r with status := .deleted } = .ok () →
      cleanupProcessOne env r
        = ⟨{ r with status := .deleted }, true, if ex then 1 else 0, 1, 0⟩) ∧
    (∀ (env : CleanupEnv) (r : UploadRequestM), (cleanupProcessOne env r).errors ≤ 1) ∧
    (∀ (env : CleanupEnv) (repo : List UploadRequestM) (cutoff : Int),
      (cleanupExecute env repo cutoff).1.errors
        = (((findExpiredRequests repo cutoff).map (cleanupProcessOne env)).map
            CleanupOutcome.errors).sum) := by
  refine ⟨by decide, by decide, fun env repo cutoff => rfl, ?_, ?_, ?_,
    fun env repo cutoff => rfl⟩
  · intro env r h1 h2
    simp [cleanupProcessOne, h1, h2]
  · intro env r ex hst hex hdel hupd
    cases ex with
    | false => simp [cleanupProcessOne, hst, hex, hupd]
    | true => simp [cleanupProcessOne, hst, hex, hdel, hupd]
  · intro env r
    by_cases hst : r.status = .pending ∨ r.status = .failed
    · cases hex : env.fileExists r.s3Key with
      | error e => simp [cleanupProcessOne, hst, hex]
      | ok ex =>
        cases ex with
        | false =>
          cases hupd : env.updateOk { r with status := .deleted } with
          | error e => simp [cleanupProcessOne, hst, hex, hupd]
          | ok u => simp [cleanupProcessOne, hst, hex, hupd]
        | true =>
          cases hdel : env.deleteFile r.s3Key with
          | error e => simp [cleanupProcessOne, hst, hex, hdel]
          | ok succ =>
            cases hupd : env.updateOk { r with status := .deleted } with
            | error e => simp [cleanupProcessOne, hst, hex, hdel, hupd]
            | ok u => simp [cleanupProcessOne, hst, hex, hdel, hupd]
    · simp [cleanupProcessOne, hst]

/-- C2 counterexample: in the spec's scenario (A pending/expired,
B uploaded/expired, C pending/not expired, cutoff `now`), the sweep
reports `total_found = 2`, not `1`: `find_expired_requests` has no status
filter, so B is among the entities found. -/
theorem C2_total_found_cex :
    entityA.status = .pending ∧ entityB.status = .uploaded ∧ entityC.status = .pending ∧
    entityA.expiresAt < 0 ∧ entityB.expiresAt < 0 ∧ (0 : Int) < entityC.expiresAt ∧
    (cleanupExecute healthyEnv [entityA, entityB, entityC] 0).1.totalFound = 2 ∧
    (cleanupExecute healthyEnv [entityA, entityB, entityC] 0).1.totalFound ≠ 1 := by
  decide

/-- Witness for C2: the expired-but-`Uploaded` B is processed as a no-op
by the sweep loop. -/
theorem C2_cleanup_sweep_witness :
    (entityB.status ≠ .pending ∧ entityB.status ≠ .failed) ∧
    cleanupProcessOne healthyEnv entityB = ⟨entityB, false, 0, 0, 0⟩ :=
  ⟨⟨by decide, by decide⟩,
    C2_cleanup_sweep.2.2.2.1 healthyEnv entityB (by decide) (by decide)⟩
